import Mathlib

/-!
Verification development for the educates training platform control plane.

Part 1 embeds the session admission/allocation scheduler from
`src/src/project/apps/workshops/manager/sessions.py` as pure functions over
an explicit `World` state.  The Django model classes (`Session`,
`SessionState`, the count/mark helper methods on environments and portals)
are not part of the given sources, so they are modelled from the
specification (sections 3, 4.3 and 4.4); everything else is a direct
translation of the Python control flow.

Part 2 (further below) embeds the `training_portal_create` reconciliation
handler from `src/session-manager/handlers/trainingportal.py` with the
cluster API modelled as an oracle of call outcomes.
-/

namespace Educates

/-- Modelled from the spec (section 4.3): the session state machine
`STARTING → {WAITING, RUNNING} → STOPPING`.  The `SessionState` Django
enumeration itself is not under the given sources. -/
inductive SessionState
  | starting
  | waiting
  | running
  | stopping
deriving DecidableEq, Repr

/-- Modelled from the spec (section 3): a `Session` database record.  The
session name is derived from the environment name and the tally value used
at creation, represented here by the pair `(envName, id)`. -/
structure Session where
  envName : Nat
  id : Nat
  created : Nat
  state : SessionState
  owner : Option Nat
  token : Option Nat
deriving DecidableEq, Repr

/-- The derived session name `<environment>-s<tally>`. -/
def sname (s : Session) : Nat × Nat := (s.envName, s.id)

/-- Modelled from the spec (section 3): a `WorkshopEnvironment` record with
its capacity, reserved-pool target and session tally counter. -/
structure Environment where
  name : Nat
  capacity : Nat
  reserved : Nat
  tally : Nat
deriving DecidableEq, Repr

/-- Modelled from the spec (section 3): the `TrainingPortal` record; only the
fields the scheduler reads are kept (`sessions_maximum`, with 0 meaning
unbounded, and the admission policy behind `session_permitted_for_user`). -/
structure Portal where
  sessions_maximum : Nat
  permitted : List Nat
deriving DecidableEq, Repr

/-- Observable actions performed by the scheduler: database record creation,
state markings, the cluster-resource creation done by the deployment task,
and invocations of the reserved-pool replenishment path. -/
inductive Event
  | createdSession : Nat × Nat → Event
  | clusterResourceCreated : Nat × Nat → Event
  | markedPending : Nat × Nat → Nat → Option Nat → Event
  | markedRunning : Nat × Nat → Nat → Event
  | markedStopping : Nat × Nat → Event
  | replenishAttempt : Nat → Event
deriving DecidableEq, Repr

/-- The whole state the scheduler acts on: the single portal, its
environments and sessions, a clock supplying `timezone.now()` timestamps,
the trace of observable events, and the list of deployment tasks registered
with `transaction.on_commit` (to run only after the transaction commits). -/
structure World where
  portal : Portal
  envs : List Environment
  sessions : List Session
  clock : Nat
  events : List Event
  hooks : List (Nat × Nat)
deriving DecidableEq, Repr

/-- Modelled from the spec (section 4.3): a session in `STOPPING` state is
marked for teardown and no longer counted. -/
def is_stopping (s : Session) : Bool :=
  match s.state with
  | .stopping => true
  | _ => false

/-- Modelled from the spec (section 3): an allocated session is owned by a
user and not stopping. -/
def is_allocated (s : Session) : Bool := s.owner.isSome && !(is_stopping s)

/-- Modelled from the spec (sections 3 and 4.4): an available (reserved)
session is unowned and not stopping. -/
def is_available (s : Session) : Bool := s.owner.isNone && !(is_stopping s)

/-- Modelled from the spec (section 4.4): active sessions include reserved
sessions as well as allocated sessions, i.e. everything not stopping. -/
def is_active (s : Session) : Bool := !(is_stopping s)

/-- Modelled from the spec (sections 4.3 and 4.4): a pending session awaits
activation, i.e. is still starting or waiting. -/
def is_pending (s : Session) : Bool :=
  match s.state with
  | .starting => true
  | .waiting => true
  | _ => false

/-- Modelled from the spec: `environment.active_sessions_count()`. -/
def active_sessions_count (w : World) (e : Nat) : Nat :=
  w.sessions.countP (fun s => s.envName == e && is_active s)

/-- Modelled from the spec: `environment.available_sessions_count()`. -/
def available_sessions_count (w : World) (e : Nat) : Nat :=
  w.sessions.countP (fun s => s.envName == e && is_available s)

/-- Modelled from the spec: `portal.active_sessions_count()`. -/
def portal_active_sessions_count (w : World) : Nat :=
  w.sessions.countP is_active

/-- Modelled from the spec: `portal.allocated_sessions_count()`. -/
def portal_allocated_sessions_count (w : World) : Nat :=
  w.sessions.countP is_allocated

/-- Modelled from the spec: `portal.available_sessions_count()`. -/
def portal_available_sessions_count (w : World) : Nat :=
  w.sessions.countP is_available

/-- Modelled from the spec: `environment.available_session()` returns an
available session of the environment if one exists. -/
def available_session (w : World) (e : Nat) : Option Session :=
  w.sessions.find? (fun s => s.envName == e && is_available s)

/-- Modelled from the spec: `portal.available_sessions()`. -/
def available_sessions (w : World) : List Session :=
  w.sessions.filter is_available

/-- Modelled from the spec: `portal.available_sessions().order_by("created")[0]`,
the oldest available session across the whole portal (first in list order
among equal timestamps, matching a stable sort by `created`). -/
def oldest_available (w : World) : Option Session :=
  match available_sessions w with
  | [] => none
  | s :: rest => some (rest.foldl (fun a t => if t.created < a.created then t else a) s)

/-- Modelled from the spec: `environment.allocated_session_for_user(user)`. -/
def allocated_session_for_user (w : World) (e : Nat) (u : Nat) : Option Session :=
  w.sessions.find? (fun s => s.envName == e && s.owner == some u && !(is_stopping s))

/-- Modelled from the spec: `portal.session_permitted_for_user(user)`, the
admission policy treated as an opaque membership check. -/
def session_permitted_for_user (w : World) (u : Nat) : Bool :=
  w.portal.permitted.contains u

/-- Update the first session record with the given name (the database row
keyed by the unique session name). -/
def update_session : List Session → Nat × Nat → (Session → Session) → List Session
  | [], _, _ => []
  | s :: rest, n, f =>
    if sname s = n then f s :: rest else s :: update_session rest n f

/-- Update the first environment record with the given name. -/
def update_env : List Environment → Nat → (Environment → Environment) → List Environment
  | [], _, _ => []
  | e :: rest, n, f =>
    if e.name = n then f e :: rest else e :: update_env rest n f

/-- Look a session up by name, as `Session.objects.get(name=name)` does. -/
def find_session (w : World) (n : Nat × Nat) : Option Session :=
  w.sessions.find? (fun s => sname s == n)

/-- Look an environment up by name. -/
def findEnv (w : World) (e : Nat) : Option Environment :=
  w.envs.find? (fun x => x.name == e)

/-- Modelled from the spec: the record-level effect of
`session.mark_as_pending(user, token)` — claim the session for the user and
bind the (possibly absent) activation token; the state is unchanged. -/
def mark_as_pending_fn (u : Nat) (t : Option Nat) (s : Session) : Session :=
  { s with owner := some u, token := t }

/-- Modelled from the spec: the record-level effect of
`session.mark_as_running(user)` — claim the session for the user with no
pending activation step. -/
def mark_as_running_fn (u : Nat) (s : Session) : Session :=
  { s with owner := some u, token := none, state := .running }

/-- Modelled from the spec: the record-level effect of
`session.mark_as_stopping()`. -/
def mark_as_stopping_fn (s : Session) : Session :=
  { s with state := .stopping }

/-- Apply `mark_as_pending` to the named session and record the action. -/
def mark_as_pending (w : World) (n : Nat × Nat) (u : Nat) (t : Option Nat) : World :=
  { w with sessions := update_session w.sessions n (mark_as_pending_fn u t),
           events := w.events ++ [.markedPending n u t] }

/-- Apply `mark_as_running` to the named session and record the action. -/
def mark_as_running (w : World) (n : Nat × Nat) (u : Nat) : World :=
  { w with sessions := update_session w.sessions n (mark_as_running_fn u),
           events := w.events ++ [.markedRunning n u] }

/-- Apply `mark_as_stopping` to the named session and record the action. -/
def mark_as_stopping (w : World) (n : Nat × Nat) : World :=
  { w with sessions := update_session w.sessions n mark_as_stopping_fn,
           events := w.events ++ [.markedStopping n] }

/-- Translation of `setup_workshop_session`: bump the environment tally,
derive the session name from it, and create the session record (state
defaults to starting, `created` taken from the clock).  The OAuth
application record it also creates is an opaque credential store keyed by
the session name and is not represented. -/
def setup_workshop_session (w : World) (env : Environment) : World × Session :=
  let tally := env.tally + 1
  let s : Session :=
    { envName := env.name, id := tally, created := w.clock,
      state := .starting, owner := none, token := none }
  let w1 :=
    { w with envs := update_env w.envs env.name (fun e => { e with tally := tally }),
             sessions := w.sessions ++ [s],
             clock := w.clock + 1,
             events := w.events ++ [.createdSession (sname s)] }
  (w1, s)

/-- Translation of `create_new_session`: set up the database record and
register the deployment task with `transaction.on_commit`, so that it runs
only after the surrounding transaction commits. -/
def create_new_session (w : World) (env : Environment) : World × Session :=
  let r := setup_workshop_session w env
  ({ r.1 with hooks := r.1.hooks ++ [sname r.2] }, r.2)

/-- Translation of `create_reserved_session`: top the reserved pool up with
one new session unless the environment wants no reservations, the pool is
already at target, the environment is at capacity, or the bounded portal has
no headroom across allocated plus available sessions. -/
def create_reserved_session (w : World) (env : Environment) : World :=
  if env.reserved = 0 then w
  else if env.reserved ≤ available_sessions_count w env.name then w
  else if env.capacity ≤ active_sessions_count w env.name then w
  else if w.portal.sessions_maximum ≠ 0 ∧
          w.portal.sessions_maximum ≤
            portal_allocated_sessions_count w + portal_available_sessions_count w then w
  else (create_new_session w env).1

/-- Translation of `allocate_session_for_user`: claim an available reserved
session for the user (pending with a token, running without), then invoke
the reserved-pool replenishment path once, and return the claimed session. -/
def allocate_session_for_user (w : World) (env : Environment) (u : Nat)
    (t : Option Nat) : World × Option Session :=
  match available_session w env.name with
  | none => (w, none)
  | some s =>
    let w1 := match t with
      | some _ => mark_as_pending w (sname s) u t
      | none => mark_as_running w (sname s) u
    let w2 := { w1 with events := w1.events ++ [.replenishAttempt env.name] }
    let s' := match t with
      | some _ => mark_as_pending_fn u t s
      | none => mark_as_running_fn u s
    (create_reserved_session w2 env, some s')

/-- Translation of `create_session_for_user`: create a new session under the
nested capacity ceilings, evicting the oldest reserved session across the
portal when the portal-wide active count is at the maximum.  On the eviction
path the source indexes the available-session list unconditionally (an
available session always exists there, since the allocated count is below
the maximum while the active count is not); the unreachable empty case is
rendered as returning no session. -/
def create_session_for_user (w : World) (env : Environment) (u : Nat)
    (t : Option Nat) : World × Option Session :=
  if env.capacity ≤ active_sessions_count w env.name then (w, none)
  else if w.portal.sessions_maximum = 0 then
    let r := create_new_session w env
    (mark_as_pending r.1 (sname r.2) u t, some (mark_as_pending_fn u t r.2))
  else if w.portal.sessions_maximum ≤ portal_allocated_sessions_count w then (w, none)
  else if portal_active_sessions_count w < w.portal.sessions_maximum then
    let r := create_new_session w env
    (mark_as_pending r.1 (sname r.2) u t, some (mark_as_pending_fn u t r.2))
  else
    match oldest_available w with
    | none => (w, none)
    | some victim =>
      let w1 := mark_as_stopping w (sname victim)
      let r := create_new_session w1 env
      (mark_as_pending r.1 (sname r.2) u t, some (mark_as_pending_fn u t r.2))

/-- Translation of `retrieve_session_for_user`: reuse the user's allocated
session if any (refreshing the token binding of a pending session), gate on
the admission policy, then try the reserved pool and fall back to fresh
creation. -/
def retrieve_session_for_user (w : World) (env : Environment) (u : Nat)
    (t : Option Nat) : World × Option Session :=
  match allocated_session_for_user w env.name u with
  | some s =>
    match t with
    | some _ =>
      if is_pending s then
        (mark_as_pending w (sname s) u t, some (mark_as_pending_fn u t s))
      else (w, some s)
    | none => (w, some s)
  | none =>
    if session_permitted_for_user w u then
      match allocate_session_for_user w env u t with
      | (w1, some s) => (w1, some s)
      | (w1, none) => create_session_for_user w1 env u t
    else (w, none)

/-- Translation of `create_workshop_session` (the deferred deployment task):
re-read the session by name, abandon unless it is still starting, otherwise
create the cluster resource and move the record to waiting or running
according to owner and token.  The assembled resource body (environment
variables, manifest fields) is boilerplate not examined by any claim and is
represented by the `clusterResourceCreated` event.  A missing record (the
source would raise `DoesNotExist`) is rendered as leaving the world
unchanged. -/
def create_workshop_session (w : World) (n : Nat × Nat) : World :=
  match find_session w n with
  | none => w
  | some s =>
    if s.state = .starting then
      let s' := match s.owner with
        | some _ =>
          match s.token with
          | some _ => { s with state := SessionState.waiting }
          | none => { s with state := SessionState.running }
        | none => { s with state := SessionState.waiting }
      { w with sessions := update_session w.sessions n (fun _ => s'),
               events := w.events ++ [.clusterResourceCreated n] }
    else w

/-- An external allocation call: either `retrieve_session_for_user` or a
direct `create_session_for_user`, addressed by environment name. -/
inductive AllocCall
  | retrieve : Nat → Nat → Option Nat → AllocCall
  | create : Nat → Nat → Option Nat → AllocCall
deriving DecidableEq, Repr

/-- Run one allocation call against the world (looking the environment
record up by name, as the callers hold a live record). -/
def run_call (w : World) : AllocCall → World
  | .retrieve e u t =>
    match findEnv w e with
    | some env => (retrieve_session_for_user w env u t).1
    | none => w
  | .create e u t =>
    match findEnv w e with
    | some env => (create_session_for_user w env u t).1
    | none => w

/-- Run a sequence of allocation calls. -/
def run_calls (w : World) (cs : List AllocCall) : World :=
  cs.foldl run_call w

/-- Well-formedness of the store: environment names are unique, session
names are unique, and every session's id is bounded by its environment's
tally (spec section 3: the tally only increases and session names derived
from it are unique). -/
def WF (w : World) : Prop :=
  (w.envs.map Environment.name).Nodup ∧
  (w.sessions.map sname).Nodup ∧
  ∀ s ∈ w.sessions, ∀ env ∈ w.envs, env.name = s.envName → s.id ≤ env.tally

/-- The capacity bounds the scheduler maintains (spec sections 3 and 8):
per-environment active counts within capacity, and the portal-wide active
count within the sessions maximum when it is nonzero. -/
def CapOK (w : World) : Prop :=
  (∀ env ∈ w.envs, active_sessions_count w env.name ≤ env.capacity) ∧
  (w.portal.sessions_maximum ≠ 0 →
    portal_active_sessions_count w ≤ w.portal.sessions_maximum)

/-- The inductive invariant for the capacity claim. -/
def Inv (w : World) : Prop := WF w ∧ CapOK w

/-- The portal phase values patched into or returned in the status. -/
inductive Phase
  | pending
  | running
  | error
  | retrying
deriving DecidableEq, Repr

/-- The kinds of supporting objects `training_portal_create` creates inside
the portal namespace (plus the cluster-scoped role binding). -/
inductive ResourceKind
  | serviceAccount
  | clusterRoleBinding
  | persistentVolumeClaim
  | configMap
  | service
  | ingress
  | roleBinding
  | deployment
deriving DecidableEq, Repr

/-- Outcome of the initial namespace query: absent, present and owned by
this portal, present but foreign, or an unexpected cluster error. -/
inductive NsQuery
  | notFound
  | foundOwned
  | foundForeign
  | queryError
deriving DecidableEq, Repr

/-- Outcome of one best-effort delete call during the LimitRange and
ResourceQuota cleanup: succeeded, object already gone (the swallowed
`ObjectDoesNotExist`), or some other cluster error (which propagates). -/
inductive DeleteResult
  | deleted
  | wasNotFound
  | failed
deriving DecidableEq, Repr

/-- How the handler terminated abnormally: a deliberate
`kopf.TemporaryError` with its retry delay, or an exception escaping
uncaught (a cluster error outside any try block that patches the phase). -/
inductive Raised
  | temporaryError : Nat → Raised
  | uncaughtError
deriving DecidableEq, Repr

/-- Oracle for the cluster API calls `training_portal_create` makes, in the
order it makes them: the namespace query result, the pre-existing status
phase, whether the namespace create (with its immediate re-fetch) succeeds,
whether the owned-namespace delete in the retry branch succeeds, the results
of the per-object cleanup deletes, the success of each supporting-object
creation, and the configured security policy engine. -/
structure ClusterEnv where
  nsQuery : NsQuery
  statusPhase : Option Phase
  nsCreateOk : Bool
  nsDeleteOk : Bool
  limitRangeDeletes : List DeleteResult
  resourceQuotaDeletes : List DeleteResult
  createOk : ResourceKind → Bool
  securityPolicyEngine : String

/-- Everything observable about one run of the handler: the phase patched
into the status (if any), how it raised (if it did), the supporting objects
successfully created in order, whether the namespace was created or deleted,
the number of mutating calls made on a foreign namespace, and the phase in
the returned status on success. -/
structure Outcome where
  patch : Option Phase
  raised : Option Raised
  createdKinds : List ResourceKind
  nsCreated : Bool
  nsDeleted : Bool
  foreignNamespaceMutations : Nat
  result : Option Phase
deriving DecidableEq, Repr

/-- The cleanup loops over pre-existing LimitRange and ResourceQuota
objects: each delete swallows `ObjectDoesNotExist` and lets any other
cluster error propagate; returns whether the loop ran to completion. -/
def run_delete_loop : List DeleteResult → Bool
  | [] => true
  | .failed :: _ => false
  | _ :: rest => run_delete_loop rest

/-- The fixed order in which the supporting objects are created, with the
policy-engine role binding only under the psp engine and the deployment
last. -/
def creation_order (engine : String) : List ResourceKind :=
  [.serviceAccount, .clusterRoleBinding, .persistentVolumeClaim, .configMap,
   .service, .ingress]
  ++ (if engine = "psp" then [.roleBinding] else [])
  ++ [.deployment]

/-- Walk the creation list, creating until the first failure; returns the
objects created and whether all succeeded. -/
def run_creations (ok : ResourceKind → Bool) : List ResourceKind → List ResourceKind × Bool
  | [] => ([], true)
  | k :: rest =>
    if ok k then
      let r := run_creations ok rest
      (k :: r.1, r.2)
    else ([], false)

/-- Translation of the `training_portal_create` handler, with the cluster
API calls resolved by the `ClusterEnv` oracle.  The pure string derivations
(hostname, credentials, manifest bodies) are configuration plumbing no claim
examines and are not represented.  Branches follow the source: namespace
query error patches Error; a foreign namespace patches Pending; an owned
namespace in phase Retrying is deleted and the handler retries (its delete
call can itself raise, uncaught); an owned namespace in any other phase
patches Error; a namespace-creation failure patches Retrying; a failure in
the best-effort cleanup loops propagates uncaught with no patch; a
supporting-object creation failure patches Retrying; full success returns a
status with phase Running. -/
def training_portal_create (c : ClusterEnv) : Outcome :=
  match c.nsQuery with
  | .queryError =>
    { patch := some .error, raised := some (.temporaryError 30), createdKinds := [],
      nsCreated := false, nsDeleted := false, foreignNamespaceMutations := 0,
      result := none }
  | .foundForeign =>
    { patch := some .pending, raised := some (.temporaryError 30), createdKinds := [],
      nsCreated := false, nsDeleted := false, foreignNamespaceMutations := 0,
      result := none }
  | .foundOwned =>
    if c.statusPhase = some .retrying then
      if c.nsDeleteOk then
        { patch := none, raised := some (.temporaryError 30), createdKinds := [],
          nsCreated := false, nsDeleted := true, foreignNamespaceMutations := 0,
          result := none }
      else
        { patch := none, raised := some .uncaughtError, createdKinds := [],
          nsCreated := false, nsDeleted := false, foreignNamespaceMutations := 0,
          result := none }
    else
      { patch := some .error, raised := some (.temporaryError 30), createdKinds := [],
        nsCreated := false, nsDeleted := false, foreignNamespaceMutations := 0,
        result := none }
  | .notFound =>
    if c.nsCreateOk then
      if run_delete_loop c.limitRangeDeletes then
        if run_delete_loop c.resourceQuotaDeletes then
          if (run_creations c.createOk (creation_order c.securityPolicyEngine)).2 then
            { patch := none, raised := none,
              createdKinds :=
                (run_creations c.createOk (creation_order c.securityPolicyEngine)).1,
              nsCreated := true, nsDeleted := false, foreignNamespaceMutations := 0,
              result := some .running }
          else
            { patch := some .retrying, raised := some (.temporaryError 30),
              createdKinds :=
                (run_creations c.createOk (creation_order c.securityPolicyEngine)).1,
              nsCreated := true, nsDeleted := false,
              foreignNamespaceMutations := 0, result := none }
        else
          { patch := none, raised := some .uncaughtError, createdKinds := [],
            nsCreated := true, nsDeleted := false, foreignNamespaceMutations := 0,
            result := none }
      else
        { patch := none, raised := some .uncaughtError, createdKinds := [],
          nsCreated := true, nsDeleted := false, foreignNamespaceMutations := 0,
          result := none }
    else
      { patch := some .retrying, raised := some (.temporaryError 30), createdKinds := [],
        nsCreated := false, nsDeleted := false, foreignNamespaceMutations := 0,
        result := none }

/-! Helper lemmas about the first-match update and lookup operations. -/

theorem map_sname_update_session (l : List Session) (n : Nat × Nat)
    (f : Session → Session) (h : ∀ s, sname (f s) = sname s) :
    (update_session l n f).map sname = l.map sname := by
  induction l with
  | nil => rfl
  | cons a rest ih =>
    by_cases ha : sname a = n <;> simp [update_session, ha, h, ih]

theorem mem_update_session (x : Session) (l : List Session) (n : Nat × Nat)
    (f : Session → Session) (hx : x ∈ update_session l n f) :
    x ∈ l ∨ ∃ s, s ∈ l ∧ x = f s := by
  induction l with
  | nil => simp [update_session] at hx
  | cons a rest ih =>
    by_cases ha : sname a = n
    · simp [update_session, ha] at hx
      rcases hx with hx | hx
      · exact Or.inr ⟨a, by simp, hx⟩
      · exact Or.inl (by simp [hx])
    · simp [update_session, ha] at hx
      rcases hx with hx | hx
      · exact Or.inl (by simp [hx])
      · rcases ih hx with h | ⟨s, hs, he⟩
        · exact Or.inl (by simp [h])
        · exact Or.inr ⟨s, by simp [hs], he⟩

theorem countP_update_session_eq (l : List Session) (n : Nat × Nat)
    (f : Session → Session) (p : Session → Bool) (h : ∀ s, p (f s) = p s) :
    (update_session l n f).countP p = l.countP p := by
  induction l with
  | nil => rfl
  | cons a rest ih =>
    by_cases ha : sname a = n <;>
      simp [update_session, ha, List.countP_cons, h, ih]

theorem countP_update_session_le (l : List Session) (n : Nat × Nat)
    (f : Session → Session) (p : Session → Bool)
    (h : ∀ s, p (f s) = true → p s = true) :
    (update_session l n f).countP p ≤ l.countP p := by
  induction l with
  | nil => exact Nat.le_refl _
  | cons a rest ih =>
    by_cases ha : sname a = n
    · have hrw : update_session (a :: rest) n f = f a :: rest := by
        simp [update_session, ha]
      rw [hrw, List.countP_cons, List.countP_cons]
      have hle : (if p (f a) then 1 else 0) ≤ (if p a then 1 else 0) := by
        by_cases hp : p (f a)
        · simp [hp, h a hp]
        · simp [hp]
      omega
    · have hrw : update_session (a :: rest) n f = a :: update_session rest n f := by
        simp [update_session, ha]
      rw [hrw, List.countP_cons, List.countP_cons]
      omega

theorem update_session_decomp_of_mem (l : List Session) (s : Session)
    (f : Session → Session) (hnd : (l.map sname).Nodup) (hs : s ∈ l) :
    ∃ l1 l2, l = l1 ++ s :: l2 ∧
      update_session l (sname s) f = l1 ++ f s :: l2 := by
  induction l with
  | nil => cases hs
  | cons a rest ih =>
    rw [List.map_cons, List.nodup_cons] at hnd
    by_cases ha : sname a = sname s
    · have has : a = s := by
        rcases List.mem_cons.mp hs with h | h
        · exact h.symm
        · exfalso
          have hmem : sname s ∈ rest.map sname := List.mem_map_of_mem sname h
          exact hnd.1 (by rw [ha]; exact hmem)
      subst has
      refine ⟨[], rest, by simp, ?_⟩
      simp [update_session]
    · have hsrest : s ∈ rest := by
        rcases List.mem_cons.mp hs with h | h
        · exact absurd (congrArg sname h.symm) ha
        · exact h
      rcases ih hnd.2 hsrest with ⟨l1, l2, hdec, hupd⟩
      exact ⟨a :: l1, l2, by simp [hdec], by simp [update_session, ha, hupd]⟩

theorem countP_update_session_of_mem (l : List Session) (s : Session)
    (f : Session → Session) (p : Session → Bool)
    (hnd : (l.map sname).Nodup) (hs : s ∈ l) :
    (update_session l (sname s) f).countP p + (if p s then 1 else 0)
      = l.countP p + (if p (f s) then 1 else 0) := by
  rcases update_session_decomp_of_mem l s f hnd hs with ⟨l1, l2, hdec, hupd⟩
  rw [hupd, hdec]
  simp [List.countP_append, List.countP_cons]
  omega

theorem map_name_update_env (l : List Environment) (n : Nat)
    (f : Environment → Environment) (h : ∀ e, (f e).name = e.name) :
    (update_env l n f).map Environment.name = l.map Environment.name := by
  induction l with
  | nil => rfl
  | cons a rest ih =>
    by_cases ha : a.name = n <;> simp [update_env, ha, h, ih]

theorem update_env_decomp_of_find (l : List Environment) (env : Environment)
    (n : Nat) (f : Environment → Environment)
    (hf : l.find? (fun x => x.name == n) = some env) :
    ∃ l1 l2, l = l1 ++ env :: l2 ∧ (∀ x ∈ l1, x.name ≠ n) ∧
      update_env l n f = l1 ++ f env :: l2 := by
  induction l with
  | nil => cases hf
  | cons a rest ih =>
    by_cases ha : a.name = n
    · have haenv : a = env := by
        rw [List.find?_cons_of_pos _ (by simpa using ha)] at hf
        exact Option.some.inj hf
      subst haenv
      refine ⟨[], rest, by simp, by simp, ?_⟩
      simp [update_env, ha]
    · have hf' : rest.find? (fun x => x.name == n) = some env := by
        rw [List.find?_cons_of_neg _ (by simpa using ha)] at hf
        exact hf
      rcases ih hf' with ⟨l1, l2, hdec, hno, hupd⟩
      refine ⟨a :: l1, l2, by simp [hdec], ?_, by simp [update_env, ha, hupd]⟩
      intro x hx
      rcases List.mem_cons.mp hx with h | h
      · rw [h]; exact ha
      · exact hno x h

theorem mem_update_env (x : Environment) (l : List Environment) (n : Nat)
    (f : Environment → Environment) (hx : x ∈ update_env l n f) :
    x ∈ l ∨ ∃ e, e ∈ l ∧ e.name = n ∧ x = f e := by
  induction l with
  | nil => simp [update_env] at hx
  | cons a rest ih =>
    by_cases ha : a.name = n
    · simp [update_env, ha] at hx
      rcases hx with hx | hx
      · exact Or.inr ⟨a, by simp, ha, hx⟩
      · exact Or.inl (by simp [hx])
    · simp [update_env, ha] at hx
      rcases hx with hx | hx
      · exact Or.inl (by simp [hx])
      · rcases ih hx with h | ⟨e, he, hn, hfe⟩
        · exact Or.inl (by simp [h])
        · exact Or.inr ⟨e, by simp [he], hn, hfe⟩

/-! Facts about the session classification predicates and counts. -/

theorem is_active_of_is_available (s : Session) (h : is_available s = true) :
    is_active s = true := by
  simp [is_available, is_active] at *
  exact h.2

theorem countP_active_eq_allocated_add_available (l : List Session) :
    l.countP is_active = l.countP is_allocated + l.countP is_available := by
  induction l with
  | nil => rfl
  | cons s rest ih =>
    cases ho : s.owner <;>
      cases hs : s.state <;>
        simp [List.countP_cons, is_active, is_allocated, is_available,
          is_stopping, ho, hs, ih] <;>
        omega

theorem portal_partition (w : World) :
    portal_active_sessions_count w =
      portal_allocated_sessions_count w + portal_available_sessions_count w :=
  countP_active_eq_allocated_add_available w.sessions

theorem foldl_oldest_mem (s : Session) (rest : List Session) :
    rest.foldl (fun a t => if t.created < a.created then t else a) s ∈ s :: rest := by
  induction rest generalizing s with
  | nil => simp
  | cons b bs ih =>
    simp only [List.foldl_cons]
    by_cases hb : b.created < s.created
    · rw [if_pos hb]
      rcases List.mem_cons.mp (ih b) with h | h
      · simp [h]
      · simp [h]
    · rw [if_neg hb]
      rcases List.mem_cons.mp (ih s) with h | h
      · simp [h]
      · simp [h]

theorem foldl_oldest_le (s : Session) (rest : List Session) :
    ∀ t ∈ s :: rest,
      (rest.foldl (fun a t => if t.created < a.created then t else a) s).created
        ≤ t.created := by
  induction rest generalizing s with
  | nil => intro t ht; simp at ht; simp [ht]
  | cons b bs ih =>
    intro t ht
    simp only [List.foldl_cons]
    by_cases hb : b.created < s.created
    · rw [if_pos hb]
      rcases List.mem_cons.mp ht with h | h
      · calc (bs.foldl _ b).created ≤ b.created := ih b b (by simp)
          _ ≤ t.created := by rw [h]; omega
      · exact ih b t (by simpa using h)
    · rw [if_neg hb]
      rcases List.mem_cons.mp ht with h | h
      · exact ih s t (by simp [h])
      · rcases List.mem_cons.mp h with h' | h'
        · calc (bs.foldl _ s).created ≤ s.created := ih s s (by simp)
            _ ≤ t.created := by rw [h']; omega
        · exact ih s t (by simp [h'])

theorem oldest_available_mem (w : World) (v : Session)
    (h : oldest_available w = some v) :
    v ∈ w.sessions ∧ is_available v = true := by
  unfold oldest_available at h
  cases hl : available_sessions w with
  | nil => rw [hl] at h; cases h
  | cons s rest =>
    rw [hl] at h
    have hv := Option.some.inj h
    have hmem : v ∈ s :: rest := hv ▸ foldl_oldest_mem s rest
    have : v ∈ available_sessions w := by rw [hl]; exact hmem
    unfold available_sessions at this
    exact ⟨(List.mem_filter.mp this).1, (List.mem_filter.mp this).2⟩

theorem oldest_available_minimal (w : World) (v : Session)
    (h : oldest_available w = some v) :
    ∀ x ∈ w.sessions, is_available x = true → v.created ≤ x.created := by
  intro x hx hav
  unfold oldest_available at h
  cases hl : available_sessions w with
  | nil => rw [hl] at h; cases h
  | cons s rest =>
    rw [hl] at h
    have hv := Option.some.inj h
    have hxmem : x ∈ s :: rest := by
      rw [← hl]
      exact List.mem_filter.mpr ⟨hx, hav⟩
    rw [← hv]
    exact foldl_oldest_le s rest x hxmem

theorem oldest_available_isSome (w : World)
    (h : 0 < portal_available_sessions_count w) :
    ∃ v, oldest_available w = some v := by
  unfold oldest_available
  cases hl : available_sessions w with
  | nil =>
    exfalso
    have : w.sessions.countP is_available = 0 := by
      rw [List.countP_eq_length_filter]
      have : w.sessions.filter is_available = [] := hl
      rw [this]
      rfl
    unfold portal_available_sessions_count at h
    omega
  | cons s rest => exact ⟨_, rfl⟩

theorem available_session_spec (w : World) (e : Nat) (s : Session)
    (h : available_session w e = some s) :
    s ∈ w.sessions ∧ s.envName = e ∧ is_available s = true := by
  unfold available_session at h
  have hmem := List.mem_of_find?_eq_some h
  have hp := List.find?_some h
  simp at hp
  exact ⟨hmem, hp.1, hp.2⟩

/-! Effects of the individual world operations on counts and structure. -/

theorem active_count_mark_as_pending (w : World) (n : Nat × Nat) (u : Nat)
    (t : Option Nat) (e : Nat) :
    active_sessions_count (mark_as_pending w n u t) e = active_sessions_count w e :=
  countP_update_session_eq _ _ _ _ (fun _ => rfl)

theorem portal_active_mark_as_pending (w : World) (n : Nat × Nat) (u : Nat)
    (t : Option Nat) :
    portal_active_sessions_count (mark_as_pending w n u t) =
      portal_active_sessions_count w :=
  countP_update_session_eq _ _ _ _ (fun _ => rfl)

theorem active_count_mark_as_running (w : World) (s : Session) (u : Nat) (e : Nat)
    (hnd : (w.sessions.map sname).Nodup) (hs : s ∈ w.sessions)
    (hav : is_available s = true) :
    active_sessions_count (mark_as_running w (sname s) u) e =
      active_sessions_count w e := by
  have hact := is_active_of_is_available s hav
  have h := countP_update_session_of_mem w.sessions s (mark_as_running_fn u)
    (fun x => x.envName == e && is_active x) hnd hs
  have h1 : is_active (mark_as_running_fn u s) = true := rfl
  have h2 : (mark_as_running_fn u s).envName = s.envName := rfl
  simp only [h1, h2, hact, Bool.and_true] at h
  unfold active_sessions_count mark_as_running
  dsimp only
  omega

theorem portal_active_mark_as_running (w : World) (s : Session) (u : Nat)
    (hnd : (w.sessions.map sname).Nodup) (hs : s ∈ w.sessions)
    (hav : is_available s = true) :
    portal_active_sessions_count (mark_as_running w (sname s) u) =
      portal_active_sessions_count w := by
  have hact := is_active_of_is_available s hav
  have h := countP_update_session_of_mem w.sessions s (mark_as_running_fn u)
    is_active hnd hs
  have h1 : is_active (mark_as_running_fn u s) = true := rfl
  simp only [h1, hact] at h
  unfold portal_active_sessions_count mark_as_running
  dsimp only
  omega

theorem active_count_mark_as_stopping_le (w : World) (n : Nat × Nat) (e : Nat) :
    active_sessions_count (mark_as_stopping w n) e ≤ active_sessions_count w e := by
  apply countP_update_session_le
  intro s h
  simp [mark_as_stopping_fn, is_active, is_stopping] at h

theorem portal_active_mark_as_stopping_le (w : World) (n : Nat × Nat) :
    portal_active_sessions_count (mark_as_stopping w n) ≤
      portal_active_sessions_count w := by
  apply countP_update_session_le
  intro s h
  simp [mark_as_stopping_fn, is_active, is_stopping] at h

theorem portal_active_mark_as_stopping_of_active (w : World) (s : Session)
    (hnd : (w.sessions.map sname).Nodup) (hs : s ∈ w.sessions)
    (hact : is_active s = true) :
    portal_active_sessions_count (mark_as_stopping w (sname s)) + 1 =
      portal_active_sessions_count w := by
  have h := countP_update_session_of_mem w.sessions s mark_as_stopping_fn
    is_active hnd hs
  have h1 : is_active (mark_as_stopping_fn s) = false := rfl
  simp only [h1, hact] at h
  unfold portal_active_sessions_count mark_as_stopping
  dsimp only
  simp at h
  omega

theorem envs_mark_ops (w : World) (n : Nat × Nat) (u : Nat) (t : Option Nat) :
    (mark_as_pending w n u t).envs = w.envs ∧
    (mark_as_running w n u).envs = w.envs ∧
    (mark_as_stopping w n).envs = w.envs :=
  ⟨rfl, rfl, rfl⟩

theorem create_new_session_unfold (w : World) (env : Environment) :
    (create_new_session w env).1.sessions = w.sessions ++
      [{ envName := env.name, id := env.tally + 1, created := w.clock,
         state := .starting, owner := none, token := none }] ∧
    (create_new_session w env).1.envs =
      update_env w.envs env.name (fun e => { e with tally := env.tally + 1 }) ∧
    (create_new_session w env).1.portal = w.portal ∧
    (create_new_session w env).2 =
      { envName := env.name, id := env.tally + 1, created := w.clock,
        state := .starting, owner := none, token := none } := by
  refine ⟨rfl, rfl, rfl, rfl⟩

theorem active_count_create_new (w : World) (env : Environment) (e : Nat) :
    active_sessions_count (create_new_session w env).1 e =
      active_sessions_count w e + (if env.name = e then 1 else 0) := by
  unfold active_sessions_count
  rw [(create_new_session_unfold w env).1, List.countP_append]
  by_cases h : env.name = e <;>
    simp [List.countP_cons, is_active, is_stopping, h]

theorem portal_active_create_new (w : World) (env : Environment) :
    portal_active_sessions_count (create_new_session w env).1 =
      portal_active_sessions_count w + 1 := by
  unfold portal_active_sessions_count
  rw [(create_new_session_unfold w env).1, List.countP_append]
  simp [List.countP_cons, is_active, is_stopping]

/-! Preservation of well-formedness and the capacity bounds. -/

theorem Inv_congr (w w' : World) (hp : w'.portal = w.portal)
    (he : w'.envs = w.envs) (hs : w'.sessions = w.sessions) (h : Inv w) :
    Inv w' := by
  obtain ⟨⟨h1, h2, h3⟩, ⟨h4, h5⟩⟩ := h
  refine ⟨⟨he ▸ h1, hs ▸ h2, ?_⟩, ⟨?_, ?_⟩⟩
  · intro s hsm env henv hn
    exact h3 s (hs ▸ hsm) env (he ▸ henv) hn
  · intro env henv
    have := h4 env (he ▸ henv)
    unfold active_sessions_count at *
    rw [hs]
    exact this
  · intro hmax
    unfold portal_active_sessions_count at *
    rw [hs, hp]
    exact h5 (by rw [← hp]; exact hmax)

theorem WF_update (w w' : World) (n : Nat × Nat) (f : Session → Session)
    (henv : w'.envs = w.envs)
    (hsess : w'.sessions = update_session w.sessions n f)
    (hf : ∀ s, sname (f s) = sname s)
    (hW : WF w) : WF w' := by
  obtain ⟨h1, h2, h3⟩ := hW
  refine ⟨henv ▸ h1, ?_, ?_⟩
  · rw [hsess, map_sname_update_session _ _ _ hf]
    exact h2
  · intro s hs env henv' hname
    rw [hsess] at hs
    rcases mem_update_session s _ _ _ hs with h | ⟨s0, hs0, rfl⟩
    · exact h3 s h env (henv ▸ henv') hname
    · have hid : (f s0).id = s0.id := congrArg Prod.snd (hf s0)
      have henvn : (f s0).envName = s0.envName := congrArg Prod.fst (hf s0)
      rw [hid]
      exact h3 s0 hs0 env (henv ▸ henv') (by rw [← henvn]; exact hname)

theorem WF_mark_as_pending (w : World) (n : Nat × Nat) (u : Nat) (t : Option Nat)
    (hW : WF w) : WF (mark_as_pending w n u t) :=
  WF_update w _ n (mark_as_pending_fn u t) rfl rfl (fun _ => rfl) hW

theorem WF_mark_as_running (w : World) (n : Nat × Nat) (u : Nat)
    (hW : WF w) : WF (mark_as_running w n u) :=
  WF_update w _ n (mark_as_running_fn u) rfl rfl (fun _ => rfl) hW

theorem WF_mark_as_stopping (w : World) (n : Nat × Nat)
    (hW : WF w) : WF (mark_as_stopping w n) :=
  WF_update w _ n mark_as_stopping_fn rfl rfl (fun _ => rfl) hW

theorem CapOK_mark_as_pending (w : World) (n : Nat × Nat) (u : Nat) (t : Option Nat)
    (hC : CapOK w) : CapOK (mark_as_pending w n u t) := by
  obtain ⟨h1, h2⟩ := hC
  constructor
  · intro env henv
    rw [active_count_mark_as_pending]
    exact h1 env henv
  · intro hmax
    rw [portal_active_mark_as_pending]
    exact h2 hmax

theorem findEnv_decomp (w : World) (env : Environment)
    (hfind : findEnv w env.name = some env) :
    env ∈ w.envs := by
  exact List.mem_of_find?_eq_some hfind

theorem WF_create_new (w : World) (env : Environment) (hW : WF w)
    (hfind : findEnv w env.name = some env) :
    WF (create_new_session w env).1 := by
  obtain ⟨h1, h2, h3⟩ := hW
  have hmem : env ∈ w.envs := List.mem_of_find?_eq_some hfind
  obtain ⟨hsess, henvs, hportal, hsnd⟩ := create_new_session_unfold w env
  rcases update_env_decomp_of_find w.envs env env.name
      (fun e => { e with tally := env.tally + 1 }) hfind with ⟨l1, l2, hdec, hno, hupd⟩
  have hnotl2 : env.name ∉ l2.map Environment.name := by
    rw [hdec, List.map_append, List.map_cons] at h1
    have hcons := (List.nodup_append.mp h1).2.1
    rw [List.nodup_cons] at hcons
    exact hcons.1
  refine ⟨?_, ?_, ?_⟩
  · rw [henvs, map_name_update_env w.envs env.name
      (fun e => { e with tally := env.tally + 1 }) (fun e => rfl)]
    exact h1
  · rw [hsess, List.map_append, List.nodup_append]
    refine ⟨h2, List.nodup_singleton _, ?_⟩
    intro a ha hb
    rcases List.mem_map.mp ha with ⟨s, hsm, rfl⟩
    simp [sname] at hb
    obtain ⟨hb1, hb2⟩ := hb
    have := h3 s hsm env hmem hb1.symm
    omega
  · intro s hs env' henv' hname
    rw [hsess] at hs
    rw [henvs, hupd] at henv'
    rcases List.mem_append.mp hs with hold | hnew
    · rcases List.mem_append.mp henv' with hin | hin
      · exact h3 s hold env' (by rw [hdec]; exact List.mem_append_left _ hin) hname
      · rcases List.mem_cons.mp hin with h' | h'
        · subst h'
          simp only
          have hb : s.id ≤ env.tally := h3 s hold env hmem hname
          omega
        · exact h3 s hold env'
            (by rw [hdec]; exact List.mem_append_right _ (List.mem_cons_of_mem _ h')) hname
    · simp at hnew
      subst hnew
      rcases List.mem_append.mp henv' with hin | hin
      · exact absurd hname (hno env' hin)
      · rcases List.mem_cons.mp hin with h' | h'
        · subst h'
          simp only
          omega
        · exact absurd
            (by rw [show env.name = env'.name from hname.symm]
                exact List.mem_map_of_mem _ h')
            hnotl2

theorem CapOK_create_new (w : World) (env : Environment)
    (hW : WF w) (hfind : findEnv w env.name = some env)
    (hcap : active_sessions_count w env.name < env.capacity)
    (hport : w.portal.sessions_maximum ≠ 0 →
      portal_active_sessions_count w < w.portal.sessions_maximum)
    (hC : CapOK w) : CapOK (create_new_session w env).1 := by
  obtain ⟨hC1, hC2⟩ := hC
  obtain ⟨h1, h2, h3⟩ := hW
  obtain ⟨hsess, henvs, hportal, hsnd⟩ := create_new_session_unfold w env
  rcases update_env_decomp_of_find w.envs env env.name
      (fun e => { e with tally := env.tally + 1 }) hfind with ⟨l1, l2, hdec, hno, hupd⟩
  have hnotl2 : env.name ∉ l2.map Environment.name := by
    rw [hdec, List.map_append, List.map_cons] at h1
    have hcons := (List.nodup_append.mp h1).2.1
    rw [List.nodup_cons] at hcons
    exact hcons.1
  constructor
  · intro env' henv'
    rw [active_count_create_new]
    rw [henvs, hupd] at henv'
    rcases List.mem_append.mp henv' with hin | hin
    · have hne : env.name ≠ env'.name := fun h => (hno env' hin) h.symm
      rw [if_neg hne, Nat.add_zero]
      exact hC1 env' (by rw [hdec]; exact List.mem_append_left _ hin)
    · rcases List.mem_cons.mp hin with h' | h'
      · have hname : env'.name = env.name := by rw [h']
        have hcapa : env'.capacity = env.capacity := by rw [h']
        rw [hname, hcapa, if_pos rfl]
        omega
      · have hne : env.name ≠ env'.name := by
          intro h
          exact hnotl2 (h ▸ List.mem_map_of_mem _ h')
        rw [if_neg hne, Nat.add_zero]
        exact hC1 env'
          (by rw [hdec]; exact List.mem_append_right _ (List.mem_cons_of_mem _ h'))
  · intro hmax
    rw [portal_active_create_new, hportal]
    have hmax' : w.portal.sessions_maximum ≠ 0 := by rw [← hportal]; exact hmax
    have := hport hmax'
    omega

theorem CapOK_mark_as_stopping (w : World) (n : Nat × Nat)
    (hC : CapOK w) : CapOK (mark_as_stopping w n) := by
  obtain ⟨h1, h2⟩ := hC
  constructor
  · intro env henv
    exact Nat.le_trans (active_count_mark_as_stopping_le w n env.name) (h1 env henv)
  · intro hmax
    exact Nat.le_trans (portal_active_mark_as_stopping_le w n) (h2 hmax)

theorem CapOK_mark_as_running (w : World) (s : Session) (u : Nat)
    (hnd : (w.sessions.map sname).Nodup) (hs : s ∈ w.sessions)
    (hav : is_available s = true) (hC : CapOK w) :
    CapOK (mark_as_running w (sname s) u) := by
  obtain ⟨h1, h2⟩ := hC
  constructor
  · intro env henv
    rw [active_count_mark_as_running w s u _ hnd hs hav]
    exact h1 env henv
  · intro hmax
    rw [portal_active_mark_as_running w s u hnd hs hav]
    exact h2 hmax

theorem Inv_create_new_guarded (w : World) (env : Environment) (hI : Inv w)
    (hfind : findEnv w env.name = some env)
    (hcap : active_sessions_count w env.name < env.capacity)
    (hport : w.portal.sessions_maximum ≠ 0 →
      portal_active_sessions_count w < w.portal.sessions_maximum) :
    Inv (create_new_session w env).1 :=
  ⟨WF_create_new w env hI.1 hfind, CapOK_create_new w env hI.1 hfind hcap hport hI.2⟩

theorem Inv_create_reserved (w : World) (env : Environment) (hI : Inv w)
    (hfind : findEnv w env.name = some env) :
    Inv (create_reserved_session w env) := by
  unfold create_reserved_session
  split_ifs with g1 g2 g3 g4
  · exact hI
  · exact hI
  · exact hI
  · exact hI
  · apply Inv_create_new_guarded w env hI hfind (by omega)
    intro hmax
    have g4' : w.portal.sessions_maximum ≠ 0 →
        portal_allocated_sessions_count w + portal_available_sessions_count w <
          w.portal.sessions_maximum := by
      intro h
      rcases Nat.lt_or_ge (portal_allocated_sessions_count w +
        portal_available_sessions_count w) w.portal.sessions_maximum with hlt | hge
      · exact hlt
      · exact absurd ⟨h, hge⟩ g4
    have := g4' hmax
    rw [portal_partition]
    omega

theorem allocate_none (w : World) (env : Environment) (u : Nat) (t : Option Nat)
    (h : (allocate_session_for_user w env u t).2 = none) :
    (allocate_session_for_user w env u t).1 = w := by
  unfold allocate_session_for_user at *
  cases hav : available_session w env.name with
  | none => simp [hav]
  | some s =>
    rw [hav] at h
    cases t <;> simp at h

theorem Inv_allocate (w : World) (env : Environment) (u : Nat) (t : Option Nat)
    (hI : Inv w) (hfind : findEnv w env.name = some env) :
    Inv (allocate_session_for_user w env u t).1 := by
  unfold allocate_session_for_user
  cases hav : available_session w env.name with
  | none => exact hI
  | some s =>
    obtain ⟨hsm, hse, hsav⟩ := available_session_spec w env.name s hav
    cases t with
    | some tok =>
      dsimp only
      refine Inv_create_reserved _ env ?_ ?_
      · refine Inv_congr (mark_as_pending w (sname s) u (some tok)) _ rfl rfl rfl ?_
        exact ⟨WF_mark_as_pending _ _ _ _ hI.1, CapOK_mark_as_pending _ _ _ _ hI.2⟩
      · exact hfind
    | none =>
      dsimp only
      refine Inv_create_reserved _ env ?_ ?_
      · refine Inv_congr (mark_as_running w (sname s) u) _ rfl rfl rfl ?_
        exact ⟨WF_mark_as_running _ _ _ hI.1,
          CapOK_mark_as_running w s u hI.1.2.1 hsm hsav hI.2⟩
      · exact hfind

theorem Inv_create_session (w : World) (env : Environment) (u : Nat) (t : Option Nat)
    (hI : Inv w) (hfind : findEnv w env.name = some env) :
    Inv (create_session_for_user w env u t).1 := by
  unfold create_session_for_user
  split_ifs with g1 g2 g3 g4
  · exact hI
  · dsimp only
    have h1 := Inv_create_new_guarded w env hI hfind (by omega)
      (fun hmax => absurd g2 hmax)
    exact ⟨WF_mark_as_pending _ _ _ _ h1.1, CapOK_mark_as_pending _ _ _ _ h1.2⟩
  · exact hI
  · dsimp only
    have h1 := Inv_create_new_guarded w env hI hfind (by omega) (fun _ => g4)
    exact ⟨WF_mark_as_pending _ _ _ _ h1.1, CapOK_mark_as_pending _ _ _ _ h1.2⟩
  · cases hold : oldest_available w with
    | none => exact hI
    | some victim =>
      dsimp only
      obtain ⟨hvm, hvav⟩ := oldest_available_mem w victim hold
      have hvact := is_active_of_is_available victim hvav
      have hI1 : Inv (mark_as_stopping w (sname victim)) :=
        ⟨WF_mark_as_stopping _ _ hI.1, CapOK_mark_as_stopping _ _ hI.2⟩
      have hcap1 : active_sessions_count (mark_as_stopping w (sname victim))
          env.name < env.capacity :=
        Nat.lt_of_le_of_lt (active_count_mark_as_stopping_le w _ env.name) (by omega)
      have hport1 : w.portal.sessions_maximum ≠ 0 →
          portal_active_sessions_count (mark_as_stopping w (sname victim)) <
            w.portal.sessions_maximum := by
        intro hmax
        have hdrop := portal_active_mark_as_stopping_of_active w victim
          hI.1.2.1 hvm hvact
        have hub := hI.2.2 hmax
        omega
      have h1 := Inv_create_new_guarded (mark_as_stopping w (sname victim)) env
        hI1 hfind hcap1 hport1
      exact ⟨WF_mark_as_pending _ _ _ _ h1.1, CapOK_mark_as_pending _ _ _ _ h1.2⟩

theorem Inv_retrieve (w : World) (env : Environment) (u : Nat) (t : Option Nat)
    (hI : Inv w) (hfind : findEnv w env.name = some env) :
    Inv (retrieve_session_for_user w env u t).1 := by
  unfold retrieve_session_for_user
  cases halloc : allocated_session_for_user w env.name u with
  | some s =>
    cases t with
    | some tok =>
      by_cases hp : is_pending s
      · simp only [hp, if_true]
        exact ⟨WF_mark_as_pending _ _ _ _ hI.1, CapOK_mark_as_pending _ _ _ _ hI.2⟩
      · simp only [hp, if_false]
        exact hI
    | none => exact hI
  | none =>
    by_cases hperm : session_permitted_for_user w u
    · simp only [hperm, if_true]
      cases hal : allocate_session_for_user w env u t with
      | mk w1 os =>
        cases os with
        | some s =>
          have h := Inv_allocate w env u t hI hfind
          rw [hal] at h
          exact h
        | none =>
          have hw1 : w1 = w := by
            have h := allocate_none w env u t (by rw [hal])
            rw [hal] at h
            exact h
          rw [hw1]
          exact Inv_create_session w env u t hI hfind
    · simp only [hperm, if_false]
      exact hI

theorem Inv_run_call (w : World) (c : AllocCall) (hI : Inv w) :
    Inv (run_call w c) := by
  cases c with
  | retrieve e u t =>
    simp only [run_call]
    cases hf : findEnv w e with
    | none => exact hI
    | some env =>
      have hname : env.name = e := by
        have := List.find?_some hf
        simpa using this
      subst hname
      exact Inv_retrieve w env u t hI hf
  | create e u t =>
    simp only [run_call]
    cases hf : findEnv w e with
    | none => exact hI
    | some env =>
      have hname : env.name = e := by
        have := List.find?_some hf
        simpa using this
      subst hname
      exact Inv_create_session w env u t hI hf

theorem Inv_run_calls (w : World) (cs : List AllocCall) (hI : Inv w) :
    Inv (run_calls w cs) := by
  induction cs generalizing w with
  | nil => exact hI
  | cons c rest ih => exact ih _ (Inv_run_call w c hI)

theorem portal_create_reserved (w : World) (env : Environment) :
    (create_reserved_session w env).portal = w.portal := by
  unfold create_reserved_session
  split_ifs <;> rfl

theorem portal_allocate (w : World) (env : Environment) (u : Nat) (t : Option Nat) :
    (allocate_session_for_user w env u t).1.portal = w.portal := by
  unfold allocate_session_for_user
  cases hav : available_session w env.name with
  | none => rfl
  | some s => cases t <;> exact portal_create_reserved _ env

theorem portal_create_session (w : World) (env : Environment) (u : Nat)
    (t : Option Nat) :
    (create_session_for_user w env u t).1.portal = w.portal := by
  unfold create_session_for_user
  split_ifs <;> try rfl
  cases oldest_available w <;> rfl

theorem portal_retrieve (w : World) (env : Environment) (u : Nat) (t : Option Nat) :
    (retrieve_session_for_user w env u t).1.portal = w.portal := by
  unfold retrieve_session_for_user
  cases halloc : allocated_session_for_user w env.name u with
  | some s =>
    cases t with
    | some tok =>
      by_cases hp : is_pending s
      · simp only [hp, if_true]
        rfl
      · simp only [hp, if_false]
        rfl
    | none => rfl
  | none =>
    by_cases hperm : session_permitted_for_user w u
    · simp only [hperm, if_true]
      cases hal : allocate_session_for_user w env u t with
      | mk w1 os =>
        cases os with
        | some s =>
          have h := portal_allocate w env u t
          rw [hal] at h
          exact h
        | none =>
          have hw1 : w1 = w := by
            have h := allocate_none w env u t (by rw [hal])
            rw [hal] at h
            exact h
          rw [hw1]
          exact portal_create_session w env u t
    · simp only [hperm, if_false]
      rfl

theorem portal_run_call (w : World) (c : AllocCall) :
    (run_call w c).portal = w.portal := by
  cases c with
  | retrieve e u t =>
    simp only [run_call]
    cases findEnv w e with
    | none => rfl
    | some env => exact portal_retrieve w env u t
  | create e u t =>
    simp only [run_call]
    cases findEnv w e with
    | none => rfl
    | some env => exact portal_create_session w env u t

theorem portal_run_calls (w : World) (cs : List AllocCall) :
    (run_calls w cs).portal = w.portal := by
  induction cs generalizing w with
  | nil => rfl
  | cons c rest ih =>
    calc (run_calls (run_call w c) rest).portal
        = (run_call w c).portal := ih _
      _ = w.portal := portal_run_call w c

/-! Claim theorems. -/

/-- C4: for every newly created session the deployment task is only
registered as a post-commit hook by `create_new_session`; no cluster
resource is created inside the open transaction (the set of
`clusterResourceCreated` events is unchanged). -/
theorem session_resource_deferred_to_commit (w : World) (env : Environment) :
    ((create_new_session w env).1).hooks = w.hooks ++ [(env.name, env.tally + 1)] ∧
    ((create_new_session w env).1).events =
      w.events ++ [Event.createdSession (env.name, env.tally + 1)] ∧
    (∀ m, Event.clusterResourceCreated m ∈ ((create_new_session w env).1).events ↔
      Event.clusterResourceCreated m ∈ w.events) := by
  refine ⟨rfl, rfl, ?_⟩
  intro m
  rw [show ((create_new_session w env).1).events =
    w.events ++ [Event.createdSession (env.name, env.tally + 1)] from rfl]
  simp

/-- The conjunction of guards under which `create_reserved_session`
actually creates a session. -/
def reserved_session_condition (w : World) (env : Environment) : Prop :=
  0 < env.reserved ∧
  available_sessions_count w env.name < env.reserved ∧
  active_sessions_count w env.name < env.capacity ∧
  (w.portal.sessions_maximum ≠ 0 →
    portal_allocated_sessions_count w + portal_available_sessions_count w <
      w.portal.sessions_maximum)

instance (w : World) (env : Environment) :
    Decidable (reserved_session_condition w env) := by
  unfold reserved_session_condition
  infer_instance

/-- C9: `create_reserved_session` creates exactly one new session when the
environment wants reservations, the reserved pool is below target, the
environment is below capacity and the bounded portal has headroom across
allocated plus available counts; otherwise it returns the world untouched. -/
theorem reserved_session_creation_iff (w : World) (env : Environment) :
    (reserved_session_condition w env →
      (create_reserved_session w env).sessions = w.sessions ++
        [{ envName := env.name, id := env.tally + 1, created := w.clock,
           state := SessionState.starting, owner := none, token := none }]) ∧
    (¬ reserved_session_condition w env →
      create_reserved_session w env = w) := by
  unfold create_reserved_session
  split_ifs with g1 g2 g3 g4
  · exact ⟨fun hc => absurd hc.1 (by omega), fun _ => rfl⟩
  · exact ⟨fun hc => absurd hc.2.1 (by omega), fun _ => rfl⟩
  · exact ⟨fun hc => absurd hc.2.2.1 (by omega), fun _ => rfl⟩
  · refine ⟨fun hc => ?_, fun _ => rfl⟩
    have := hc.2.2.2 g4.1
    omega
  · refine ⟨fun _ => (create_new_session_unfold w env).1, fun hnc => ?_⟩
    exfalso
    apply hnc
    refine ⟨by omega, by omega, by omega, fun hm => ?_⟩
    rcases Nat.lt_or_ge (portal_allocated_sessions_count w +
      portal_available_sessions_count w) w.portal.sessions_maximum with hlt | hge
    · exact hlt
    · exact absurd ⟨hm, hge⟩ g4

/-- A world in which `create_reserved_session` has every guard satisfied. -/
def rsWorldA : World :=
  { portal := { sessions_maximum := 0, permitted := [5] },
    envs := [{ name := 1, capacity := 2, reserved := 1, tally := 0 }],
    sessions := [], clock := 0, events := [], hooks := [] }

/-- A world in which the environment wants no reservations. -/
def rsWorldB : World :=
  { portal := { sessions_maximum := 0, permitted := [5] },
    envs := [{ name := 1, capacity := 2, reserved := 0, tally := 0 }],
    sessions := [], clock := 0, events := [], hooks := [] }

theorem reserved_session_creation_iff_witness :
    (create_reserved_session rsWorldA
        { name := 1, capacity := 2, reserved := 1, tally := 0 }).sessions =
      rsWorldA.sessions ++
        [{ envName := 1, id := 1, created := 0,
           state := SessionState.starting, owner := none, token := none }] ∧
    create_reserved_session rsWorldB
        { name := 1, capacity := 2, reserved := 0, tally := 0 } = rsWorldB :=
  ⟨(reserved_session_creation_iff rsWorldA
      { name := 1, capacity := 2, reserved := 1, tally := 0 }).1 (by decide),
   (reserved_session_creation_iff rsWorldB
      { name := 1, capacity := 2, reserved := 0, tally := 0 }).2 (by decide)⟩

theorem find_session_after_update (l : List Session) (n : Nat × Nat)
    (s' : Session) (hn : sname s' = n)
    (hfound : (l.find? (fun s => sname s == n)).isSome) :
    (update_session l n (fun _ => s')).find? (fun s => sname s == n) = some s' := by
  induction l with
  | nil => simp at hfound
  | cons a rest ih =>
    by_cases ha : sname a = n
    · rw [show update_session (a :: rest) n (fun _ => s') = s' :: rest from by
        simp [update_session, ha]]
      exact List.find?_cons_of_pos _ (by simp [hn])
    · rw [show update_session (a :: rest) n (fun _ => s') =
          a :: update_session rest n (fun _ => s') from by simp [update_session, ha]]
      rw [List.find?_cons_of_neg _ (by simp [ha])]
      apply ih
      rw [List.find?_cons_of_neg _ (by simp [ha])] at hfound
      exact hfound

theorem cws_noop (w : World) (n : Nat × Nat) (s : Session)
    (hf : find_session w n = some s) (hns : s.state ≠ SessionState.starting) :
    create_workshop_session w n = w := by
  unfold create_workshop_session
  rw [hf]
  dsimp only
  rw [if_neg hns]

theorem cws_noop_none (w : World) (n : Nat × Nat)
    (hf : find_session w n = none) :
    create_workshop_session w n = w := by
  unfold create_workshop_session
  rw [hf]

theorem cws_found_starting (w : World) (n : Nat × Nat) (s : Session)
    (hf : find_session w n = some s) (hst : s.state = SessionState.starting) :
    ∃ s', create_workshop_session w n =
        { w with sessions := update_session w.sessions n (fun _ => s'),
                 events := w.events ++ [Event.clusterResourceCreated n] } ∧
      sname s' = sname s ∧ s'.state ≠ SessionState.starting := by
  unfold create_workshop_session
  rw [hf]
  dsimp only
  rw [if_pos hst]
  cases ho : s.owner with
  | some u0 =>
    cases ht : s.token with
    | some t0 => exact ⟨_, rfl, rfl, by simp⟩
    | none => exact ⟨_, rfl, rfl, by simp⟩
  | none => exact ⟨_, rfl, rfl, by simp⟩

/-- C3: the deployment task is a no-op for any session not in `STARTING`
state, and running it a second time after a first run (which always leaves
the session out of `STARTING`) changes nothing at all — no cluster resource
creation and no record mutation. -/
theorem deployment_task_idempotent (w : World) (n : Nat × Nat) :
    (∀ s, find_session w n = some s → s.state ≠ SessionState.starting →
      create_workshop_session w n = w) ∧
    create_workshop_session (create_workshop_session w n) n =
      create_workshop_session w n := by
  refine ⟨fun s hf hns => cws_noop w n s hf hns, ?_⟩
  cases hf : find_session w n with
  | none => rw [cws_noop_none w n hf, cws_noop_none w n hf]
  | some s =>
    by_cases hst : s.state = SessionState.starting
    · rcases cws_found_starting w n s hf hst with ⟨s', hw1, hsn, hns⟩
      have hsn' : sname s' = n := by
        rw [hsn]
        have := List.find?_some hf
        simpa using this
      have hfound : (w.sessions.find? (fun x => sname x == n)).isSome := by
        have : find_session w n = some s := hf
        unfold find_session at this
        rw [this]
        rfl
      have hf2 : find_session (create_workshop_session w n) n = some s' := by
        rw [hw1]
        unfold find_session
        exact find_session_after_update w.sessions n s' hsn' hfound
      exact cws_noop _ n s' hf2 hns
    · rw [cws_noop w n s hf hst, cws_noop w n s hf hst]

/-- A world holding a session already in waiting state, for the C3
witness. -/
def c3World : World :=
  { portal := { sessions_maximum := 0, permitted := [] },
    envs := [],
    sessions := [{ envName := 1, id := 1, created := 0,
                   state := SessionState.waiting, owner := none, token := none }],
    clock := 1, events := [], hooks := [] }

theorem deployment_task_idempotent_witness :
    create_workshop_session (create_workshop_session c3World (1, 1)) (1, 1) =
      create_workshop_session c3World (1, 1) ∧
    create_workshop_session c3World (1, 1) = c3World :=
  ⟨(deployment_task_idempotent c3World (1, 1)).2,
   (deployment_task_idempotent c3World (1, 1)).1
     { envName := 1, id := 1, created := 0, state := SessionState.waiting,
       owner := none, token := none } (by decide) (by decide)⟩

/-- Number of `markedPending` events in a trace. -/
def count_marked_pending (l : List Event) : Nat :=
  l.countP (fun ev => match ev with | .markedPending _ _ _ => true | _ => false)

/-- Number of `markedRunning` events in a trace. -/
def count_marked_running (l : List Event) : Nat :=
  l.countP (fun ev => match ev with | .markedRunning _ _ => true | _ => false)

/-- Number of `replenishAttempt` events for an environment in a trace. -/
def count_replenish (l : List Event) (e : Nat) : Nat :=
  l.countP (fun ev => match ev with | .replenishAttempt x => x == e | _ => false)

theorem count_mp_append_one (l : List Event) (ev : Event) :
    count_marked_pending (l ++ [ev]) = count_marked_pending l +
      (match ev with | .markedPending _ _ _ => 1 | _ => 0) := by
  unfold count_marked_pending
  rw [List.countP_append]
  cases ev <;> rfl

theorem count_mr_append_one (l : List Event) (ev : Event) :
    count_marked_running (l ++ [ev]) = count_marked_running l +
      (match ev with | .markedRunning _ _ => 1 | _ => 0) := by
  unfold count_marked_running
  rw [List.countP_append]
  cases ev <;> rfl

theorem count_rp_append (l1 l2 : List Event) (e : Nat) :
    count_replenish (l1 ++ l2) e = count_replenish l1 e + count_replenish l2 e := by
  unfold count_replenish
  rw [List.countP_append]

/-- C10: every session created fresh by `create_session_for_user` is claimed
via `mark_as_pending(user, token)` even when no token is supplied (the
returned record carries the user as owner and exactly the given token, a
`markedPending` event is emitted and no `markedRunning` event is), whereas
allocation from the reserved pool without a token marks the session
running. -/
theorem fresh_sessions_marked_pending :
    (∀ w env u t s, (create_session_for_user w env u t).2 = some s →
      s.owner = some u ∧ s.token = t ∧
      count_marked_pending (create_session_for_user w env u t).1.events =
        count_marked_pending w.events + 1 ∧
      count_marked_running (create_session_for_user w env u t).1.events =
        count_marked_running w.events) ∧
    (∀ w env u s, available_session w env.name = some s →
      (allocate_session_for_user w env u none).2 = some (mark_as_running_fn u s) ∧
      (mark_as_running_fn u s).state = SessionState.running) := by
  constructor
  · intro w env u t s h
    unfold create_session_for_user at h ⊢
    split_ifs at h ⊢ with g1 g2 g3 g4
    · have hs := Option.some.inj h
      subst hs
      refine ⟨rfl, rfl, ?_, ?_⟩
      · show count_marked_pending ((w.events ++
          [Event.createdSession (env.name, env.tally + 1)]) ++
          [Event.markedPending (env.name, env.tally + 1) u t]) = _
        rw [count_mp_append_one, count_mp_append_one]
        rfl
      · show count_marked_running ((w.events ++
          [Event.createdSession (env.name, env.tally + 1)]) ++
          [Event.markedPending (env.name, env.tally + 1) u t]) = _
        rw [count_mr_append_one, count_mr_append_one]
        rfl
    · have hs := Option.some.inj h
      subst hs
      refine ⟨rfl, rfl, ?_, ?_⟩
      · show count_marked_pending ((w.events ++
          [Event.createdSession (env.name, env.tally + 1)]) ++
          [Event.markedPending (env.name, env.tally + 1) u t]) = _
        rw [count_mp_append_one, count_mp_append_one]
        rfl
      · show count_marked_running ((w.events ++
          [Event.createdSession (env.name, env.tally + 1)]) ++
          [Event.markedPending (env.name, env.tally + 1) u t]) = _
        rw [count_mr_append_one, count_mr_append_one]
        rfl
    · cases hold : oldest_available w with
      | none =>
        rw [hold] at h
        simp at h
      | some victim =>
        rw [hold] at h
        have hs := Option.some.inj h
        subst hs
        refine ⟨rfl, rfl, ?_, ?_⟩
        · show count_marked_pending (((w.events ++
            [Event.markedStopping (sname victim)]) ++
            [Event.createdSession (env.name, env.tally + 1)]) ++
            [Event.markedPending (env.name, env.tally + 1) u t]) = _
          rw [count_mp_append_one, count_mp_append_one, count_mp_append_one]
          rfl
        · show count_marked_running (((w.events ++
            [Event.markedStopping (sname victim)]) ++
            [Event.createdSession (env.name, env.tally + 1)]) ++
            [Event.markedPending (env.name, env.tally + 1) u t]) = _
          rw [count_mr_append_one, count_mr_append_one, count_mr_append_one]
          rfl
  · intro w env u s havail
    unfold allocate_session_for_user
    rw [havail]
    exact ⟨rfl, rfl⟩

/-- A world with a single empty environment under an unbounded portal. -/
def c10World : World :=
  { portal := { sessions_maximum := 0, permitted := [7] },
    envs := [{ name := 1, capacity := 5, reserved := 0, tally := 0 }],
    sessions := [], clock := 0, events := [], hooks := [] }

/-- The environment record of `c10World`. -/
def c10Env : Environment := { name := 1, capacity := 5, reserved := 0, tally := 0 }

/-- A world holding one reserved (available) session for the environment. -/
def c10WorldB : World :=
  { portal := { sessions_maximum := 0, permitted := [7] },
    envs := [{ name := 1, capacity := 5, reserved := 1, tally := 1 }],
    sessions := [{ envName := 1, id := 1, created := 0,
                   state := SessionState.waiting, owner := none, token := none }],
    clock := 1, events := [], hooks := [] }

/-- The reserved session of `c10WorldB`. -/
def c10Sess : Session :=
  { envName := 1, id := 1, created := 0, state := SessionState.waiting,
    owner := none, token := none }

theorem fresh_sessions_marked_pending_witness :
    ({ envName := 1, id := 1, created := 0, state := SessionState.starting,
       owner := some 7, token := none } : Session).owner = some 7 ∧
    ({ envName := 1, id := 1, created := 0, state := SessionState.starting,
       owner := some 7, token := none } : Session).token = none ∧
    count_marked_pending (create_session_for_user c10World c10Env 7 none).1.events =
      count_marked_pending c10World.events + 1 ∧
    count_marked_running (create_session_for_user c10World c10Env 7 none).1.events =
      count_marked_running c10World.events :=
  fresh_sessions_marked_pending.1 c10World c10Env 7 none
    { envName := 1, id := 1, created := 0, state := SessionState.starting,
      owner := some 7, token := none } (by decide)

theorem count_rp_single_self (e : Nat) :
    count_replenish [Event.replenishAttempt e] e = 1 := by
  unfold count_replenish
  simp

theorem count_replenish_create_reserved (w : World) (env : Environment) (e : Nat) :
    count_replenish (create_reserved_session w env).events e =
      count_replenish w.events e := by
  unfold create_reserved_session
  split_ifs
  · rfl
  · rfl
  · rfl
  · rfl
  · rw [show (create_new_session w env).1.events =
      w.events ++ [Event.createdSession (env.name, env.tally + 1)] from rfl,
      count_rp_append]
    rfl

/-- C8: with an available reserved session, a permitted user with no
existing allocation receives that reserved session from
`retrieve_session_for_user` — marked pending when a token is supplied and
running otherwise — and the replenishment path `create_reserved_session`
is invoked exactly once. -/
theorem reserved_session_preferred (w : World) (env : Environment) (u : Nat)
    (t : Option Nat) (s : Session)
    (hnone : allocated_session_for_user w env.name u = none)
    (hperm : session_permitted_for_user w u = true)
    (havail : available_session w env.name = some s) :
    (retrieve_session_for_user w env u t).2 =
      some (match t with
            | some _ => mark_as_pending_fn u t s
            | none => mark_as_running_fn u s) ∧
    count_replenish (retrieve_session_for_user w env u t).1.events env.name =
      count_replenish w.events env.name + 1 := by
  unfold retrieve_session_for_user
  rw [hnone]
  dsimp only
  rw [if_pos hperm]
  cases t with
  | none =>
    have hal : allocate_session_for_user w env u none =
        (create_reserved_session
          { mark_as_running w (sname s) u with
            events := (mark_as_running w (sname s) u).events ++
              [Event.replenishAttempt env.name] } env,
         some (mark_as_running_fn u s)) := by
      unfold allocate_session_for_user
      rw [havail]
    rw [hal]
    refine ⟨rfl, ?_⟩
    rw [count_replenish_create_reserved]
    show count_replenish ((w.events ++ [Event.markedRunning (sname s) u]) ++
      [Event.replenishAttempt env.name]) env.name = _
    rw [count_rp_append, count_rp_append, count_rp_single_self]
    rfl
  | some tok =>
    have hal : allocate_session_for_user w env u (some tok) =
        (create_reserved_session
          { mark_as_pending w (sname s) u (some tok) with
            events := (mark_as_pending w (sname s) u (some tok)).events ++
              [Event.replenishAttempt env.name] } env,
         some (mark_as_pending_fn u (some tok) s)) := by
      unfold allocate_session_for_user
      rw [havail]
    rw [hal]
    refine ⟨rfl, ?_⟩
    rw [count_replenish_create_reserved]
    show count_replenish ((w.events ++ [Event.markedPending (sname s) u (some tok)]) ++
      [Event.replenishAttempt env.name]) env.name = _
    rw [count_rp_append, count_rp_append, count_rp_single_self]
    rfl

/-- A world with one reserved session and a permitted user, for the C8
witness. -/
def c8World : World :=
  { portal := { sessions_maximum := 0, permitted := [7] },
    envs := [{ name := 1, capacity := 5, reserved := 0, tally := 1 }],
    sessions := [{ envName := 1, id := 1, created := 0,
                   state := SessionState.waiting, owner := none, token := none }],
    clock := 1, events := [], hooks := [] }

/-- The environment record of `c8World`. -/
def c8Env : Environment := { name := 1, capacity := 5, reserved := 0, tally := 1 }

/-- The reserved session of `c8World`. -/
def c8Sess : Session :=
  { envName := 1, id := 1, created := 0, state := SessionState.waiting,
    owner := none, token := none }

theorem reserved_session_preferred_witness :
    (retrieve_session_for_user c8World c8Env 7 none).2 =
      some (mark_as_running_fn 7 c8Sess) ∧
    count_replenish (retrieve_session_for_user c8World c8Env 7 none).1.events 1 =
      count_replenish c8World.events 1 + 1 :=
  reserved_session_preferred c8World c8Env 7 none c8Sess
    (by decide) (by decide) (by decide)

/-- C2: when the portal-wide active count sits at the sessions maximum but
the allocated count is below it, `create_session_for_user` marks exactly one
reserved session as stopping — the oldest available session across the whole
portal by creation timestamp — immediately before creating and claiming the
new session. -/
theorem eviction_targets_oldest (w : World) (env : Environment) (u : Nat)
    (t : Option Nat)
    (hcap : active_sessions_count w env.name < env.capacity)
    (halloc : portal_allocated_sessions_count w < w.portal.sessions_maximum)
    (hactive : portal_active_sessions_count w = w.portal.sessions_maximum) :
    ∃ victim,
      oldest_available w = some victim ∧
      victim ∈ w.sessions ∧ is_available victim = true ∧
      (∀ x ∈ w.sessions, is_available x = true → victim.created ≤ x.created) ∧
      (create_session_for_user w env u t).1.events =
        w.events ++ [Event.markedStopping (sname victim),
                     Event.createdSession (env.name, env.tally + 1),
                     Event.markedPending (env.name, env.tally + 1) u t] ∧
      (create_session_for_user w env u t).2 =
        some (mark_as_pending_fn u t
          { envName := env.name, id := env.tally + 1, created := w.clock,
            state := SessionState.starting, owner := none, token := none }) := by
  have hpart := portal_partition w
  have havailpos : 0 < portal_available_sessions_count w := by omega
  obtain ⟨v, hv⟩ := oldest_available_isSome w havailpos
  obtain ⟨hvm, hvav⟩ := oldest_available_mem w v hv
  have hstep : create_session_for_user w env u t =
      (mark_as_pending (create_new_session (mark_as_stopping w (sname v)) env).1
        (sname (create_new_session (mark_as_stopping w (sname v)) env).2) u t,
       some (mark_as_pending_fn u t
         (create_new_session (mark_as_stopping w (sname v)) env).2)) := by
    unfold create_session_for_user
    rw [if_neg (by omega), if_neg (by omega), if_neg (by omega), if_neg (by omega), hv]
  refine ⟨v, hv, hvm, hvav, oldest_available_minimal w v hv, ?_, ?_⟩
  · rw [hstep]
    show ((w.events ++ [Event.markedStopping (sname v)]) ++
      [Event.createdSession (env.name, env.tally + 1)]) ++
      [Event.markedPending (env.name, env.tally + 1) u t] = _
    simp
  · rw [hstep]
    rfl

/-- A portal at its sessions maximum with two reserved sessions of different
ages, for the C2 witness. -/
def c2World : World :=
  { portal := { sessions_maximum := 2, permitted := [7] },
    envs := [{ name := 3, capacity := 5, reserved := 0, tally := 0 }],
    sessions := [{ envName := 1, id := 1, created := 5,
                   state := SessionState.waiting, owner := none, token := none },
                 { envName := 2, id := 1, created := 3,
                   state := SessionState.waiting, owner := none, token := none }],
    clock := 9, events := [], hooks := [] }

/-- The requesting environment of `c2World`. -/
def c2Env : Environment := { name := 3, capacity := 5, reserved := 0, tally := 0 }

theorem eviction_targets_oldest_witness :
    ∃ victim,
      oldest_available c2World = some victim ∧
      victim ∈ c2World.sessions ∧ is_available victim = true ∧
      (∀ x ∈ c2World.sessions, is_available x = true →
        victim.created ≤ x.created) ∧
      (create_session_for_user c2World c2Env 7 none).1.events =
        c2World.events ++ [Event.markedStopping (sname victim),
                           Event.createdSession (3, 1),
                           Event.markedPending (3, 1) 7 none] ∧
      (create_session_for_user c2World c2Env 7 none).2 =
        some (mark_as_pending_fn 7 none
          { envName := 3, id := 1, created := 9,
            state := SessionState.starting, owner := none, token := none }) :=
  eviction_targets_oldest c2World c2Env 7 none (by decide) (by decide) (by decide)

theorem allocated_le_active (w : World) :
    portal_allocated_sessions_count w ≤ portal_active_sessions_count w := by
  unfold portal_allocated_sessions_count portal_active_sessions_count
  apply List.countP_mono_left
  intro s _ hp
  unfold is_allocated at hp
  unfold is_active
  simp only [Bool.and_eq_true] at hp
  exact hp.2

instance (w : World) : Decidable (Inv w) := by
  unfold Inv WF CapOK
  infer_instance

/-- C1: starting from any invariant-respecting state, after every sequence
of allocation calls each environment's active session count stays within its
capacity and, for a bounded portal, the allocated count stays within the
sessions maximum; moreover `create_session_for_user` returns without
creating a session whenever the environment is at capacity or the bounded
portal's allocated count has reached the maximum. -/
theorem capacity_invariant_holds (w : World) (cs : List AllocCall) (h : Inv w) :
    (∀ env ∈ (run_calls w cs).envs,
        active_sessions_count (run_calls w cs) env.name ≤ env.capacity) ∧
    (w.portal.sessions_maximum ≠ 0 →
        portal_allocated_sessions_count (run_calls w cs) ≤
          w.portal.sessions_maximum) ∧
    (∀ v : World, ∀ env : Environment, ∀ u : Nat, ∀ t : Option Nat,
        env.capacity ≤ active_sessions_count v env.name ∨
          (v.portal.sessions_maximum ≠ 0 ∧
           v.portal.sessions_maximum ≤ portal_allocated_sessions_count v) →
        create_session_for_user v env u t = (v, none)) := by
  have hI := Inv_run_calls w cs h
  refine ⟨hI.2.1, ?_, ?_⟩
  · intro hmax
    have hub : portal_active_sessions_count (run_calls w cs) ≤
        w.portal.sessions_maximum := by
      have h2 := hI.2.2
      rw [portal_run_calls] at h2
      exact h2 hmax
    have hmono := allocated_le_active (run_calls w cs)
    omega
  · intro v env u t hden
    unfold create_session_for_user
    rcases hden with hcapd | ⟨hne, hle⟩
    · rw [if_pos hcapd]
    · by_cases h1 : env.capacity ≤ active_sessions_count v env.name
      · rw [if_pos h1]
      · rw [if_neg h1, if_neg hne, if_pos hle]

/-- A bounded portal with one environment and no sessions, for the C1
witness. -/
def c1World : World :=
  { portal := { sessions_maximum := 2, permitted := [5, 6, 7] },
    envs := [{ name := 1, capacity := 2, reserved := 1, tally := 0 }],
    sessions := [], clock := 0, events := [], hooks := [] }

/-- A sequence of allocation calls exercising reuse, reservation and fresh
creation, for the C1 witness. -/
def c1Calls : List AllocCall :=
  [AllocCall.retrieve 1 5 none, AllocCall.retrieve 1 6 (some 11),
   AllocCall.create 1 7 none, AllocCall.retrieve 1 7 none]

theorem capacity_invariant_holds_witness :
    portal_allocated_sessions_count (run_calls c1World c1Calls) ≤ 2 :=
  (capacity_invariant_holds c1World c1Calls (by decide)).2.1 (by decide)

/-! Claims about the training-portal reconciliation handler. -/

/-- C6: a pre-existing namespace not owned by this portal makes the handler
patch phase `Pending` and raise a retryable error with a 30 second delay,
creating nothing, deleting nothing and making no mutating call on the
foreign namespace. -/
theorem foreign_namespace_left_alone (c : ClusterEnv)
    (h : c.nsQuery = NsQuery.foundForeign) :
    training_portal_create c =
      { patch := some Phase.pending, raised := some (Raised.temporaryError 30),
        createdKinds := [], nsCreated := false, nsDeleted := false,
        foreignNamespaceMutations := 0, result := none } := by
  unfold training_portal_create
  rw [h]

/-- A cluster state with a foreign namespace, for the C6 witness. -/
def c6Cluster : ClusterEnv :=
  { nsQuery := NsQuery.foundForeign, statusPhase := none, nsCreateOk := true,
    nsDeleteOk := true, limitRangeDeletes := [], resourceQuotaDeletes := [],
    createOk := fun _ => true, securityPolicyEngine := "" }

theorem foreign_namespace_left_alone_witness :
    training_portal_create c6Cluster =
      { patch := some Phase.pending, raised := some (Raised.temporaryError 30),
        createdKinds := [], nsCreated := false, nsDeleted := false,
        foreignNamespaceMutations := 0, result := none } :=
  foreign_namespace_left_alone c6Cluster rfl

theorem run_creations_eq (ok : ResourceKind → Bool) (l : List ResourceKind) :
    run_creations ok l = (l.takeWhile ok, l.all ok) := by
  induction l with
  | nil => rfl
  | cons k rest ih =>
    by_cases h : ok k <;>
      simp [run_creations, List.takeWhile_cons, List.all_cons, h, ih]

theorem takeWhile_of_all (p : ResourceKind → Bool) (l : List ResourceKind)
    (h : l.all p = true) : l.takeWhile p = l := by
  induction l with
  | nil => rfl
  | cons a rest ih =>
    rw [List.all_cons, Bool.and_eq_true] at h
    simp [List.takeWhile_cons, h.1, ih h.2]

/-- C7: once the namespace is freshly created and the cleanup loops finish,
the handler creates the supporting objects in the fixed order
ServiceAccount, ClusterRoleBinding, PersistentVolumeClaim, ConfigMap,
Service, Ingress, the psp RoleBinding only under the psp policy engine, and
the Deployment last; the objects actually created always form the longest
successful prefix of that order, and any creation failure patches phase
`Retrying` and raises a retryable error. -/
theorem supporting_objects_fixed_order (c : ClusterEnv)
    (h1 : c.nsQuery = NsQuery.notFound) (h2 : c.nsCreateOk = true)
    (h3 : run_delete_loop c.limitRangeDeletes = true)
    (h4 : run_delete_loop c.resourceQuotaDeletes = true) :
    (training_portal_create c).createdKinds =
      (creation_order c.securityPolicyEngine).takeWhile c.createOk ∧
    ((creation_order c.securityPolicyEngine).all c.createOk = true →
      (training_portal_create c).createdKinds =
        [ResourceKind.serviceAccount, ResourceKind.clusterRoleBinding,
         ResourceKind.persistentVolumeClaim, ResourceKind.configMap,
         ResourceKind.service, ResourceKind.ingress] ++
        (if c.securityPolicyEngine = "psp" then [ResourceKind.roleBinding]
         else []) ++
        [ResourceKind.deployment] ∧
      (training_portal_create c).raised = none ∧
      (training_portal_create c).result = some Phase.running) ∧
    ((creation_order c.securityPolicyEngine).all c.createOk = false →
      (training_portal_create c).patch = some Phase.retrying ∧
      (training_portal_create c).raised = some (Raised.temporaryError 30)) := by
  have hred : training_portal_create c =
      if (run_creations c.createOk (creation_order c.securityPolicyEngine)).2 then
        { patch := none, raised := none,
          createdKinds :=
            (run_creations c.createOk (creation_order c.securityPolicyEngine)).1,
          nsCreated := true, nsDeleted := false, foreignNamespaceMutations := 0,
          result := some Phase.running }
      else
        { patch := some Phase.retrying, raised := some (Raised.temporaryError 30),
          createdKinds :=
            (run_creations c.createOk (creation_order c.securityPolicyEngine)).1,
          nsCreated := true, nsDeleted := false,
          foreignNamespaceMutations := 0, result := none } := by
    unfold training_portal_create
    rw [h1]
    dsimp only
    rw [if_pos h2, if_pos h3, if_pos h4]
  rw [hred, run_creations_eq]
  by_cases hall : (creation_order c.securityPolicyEngine).all c.createOk = true
  · rw [if_pos hall]
    refine ⟨rfl, fun _ => ⟨?_, rfl, rfl⟩, fun hf => ?_⟩
    · show (creation_order c.securityPolicyEngine).takeWhile c.createOk = _
      rw [takeWhile_of_all _ _ hall]
      rfl
    · rw [hall] at hf
      cases hf
  · rw [if_neg hall]
    refine ⟨rfl, fun ht => absurd ht hall, fun _ => ⟨rfl, rfl⟩⟩

/-- A healthy creation run under the psp policy engine, for the C7
witness. -/
def c7Cluster : ClusterEnv :=
  { nsQuery := NsQuery.notFound, statusPhase := none, nsCreateOk := true,
    nsDeleteOk := true, limitRangeDeletes := [DeleteResult.wasNotFound],
    resourceQuotaDeletes := [], createOk := fun _ => true,
    securityPolicyEngine := "psp" }

theorem supporting_objects_fixed_order_witness :
    (training_portal_create c7Cluster).createdKinds =
      [ResourceKind.serviceAccount, ResourceKind.clusterRoleBinding,
       ResourceKind.persistentVolumeClaim, ResourceKind.configMap,
       ResourceKind.service, ResourceKind.ingress] ++
      (if c7Cluster.securityPolicyEngine = "psp" then [ResourceKind.roleBinding]
       else []) ++
      [ResourceKind.deployment] ∧
    (training_portal_create c7Cluster).raised = none ∧
    (training_portal_create c7Cluster).result = some Phase.running :=
  (supporting_objects_fixed_order c7Cluster rfl rfl rfl rfl).2.1 (by decide)

/-- A run in which a pre-existing LimitRange delete raises an unexpected
cluster error after the namespace has been created. -/
def c5Cluster : ClusterEnv :=
  { nsQuery := NsQuery.notFound, statusPhase := none, nsCreateOk := true,
    nsDeleteOk := true, limitRangeDeletes := [DeleteResult.failed],
    resourceQuotaDeletes := [], createOk := fun _ => true,
    securityPolicyEngine := "" }

/-- C5 counterexample: on `c5Cluster` the handler raises (the LimitRange
cleanup error propagates uncaught) with the namespace already created but
without having patched any phase at all, so the raise is not preceded by a
`Retrying`, `Error` or `Pending` marker. -/
theorem phase_marker_claim_fails :
    (training_portal_create c5Cluster).raised = some Raised.uncaughtError ∧
    (training_portal_create c5Cluster).patch = none ∧
    (training_portal_create c5Cluster).nsCreated = true :=
  ⟨rfl, rfl, rfl⟩

/-- C5 (amended): every path on which `training_portal_create` deliberately
raises a `kopf.TemporaryError` has first patched the phase to `Retrying`,
`Error` or `Pending`, except the owned-namespace retry branch on which the
pre-existing status phase is already `Retrying`; cluster errors raised
during the best-effort LimitRange/ResourceQuota cleanup (or while deleting
an owned namespace) propagate uncaught without any phase patch. -/
theorem temporary_errors_carry_phase_marker (c : ClusterEnv) (d : Nat)
    (h : (training_portal_create c).raised = some (Raised.temporaryError d)) :
    (training_portal_create c).patch = some Phase.retrying ∨
    (training_portal_create c).patch = some Phase.error ∨
    (training_portal_create c).patch = some Phase.pending ∨
    c.statusPhase = some Phase.retrying := by
  unfold training_portal_create at h ⊢
  revert h
  cases hq : c.nsQuery
  all_goals intro h
  all_goals dsimp only at h ⊢
  case queryError => right; left; rfl
  case foundForeign => right; right; left; rfl
  case foundOwned =>
    by_cases hp : c.statusPhase = some Phase.retrying
    · right; right; right; exact hp
    · rw [if_neg hp] at h ⊢
      right; left; rfl
  case notFound =>
    by_cases hc : c.nsCreateOk = true
    · rw [if_pos hc] at h ⊢
      by_cases hl : run_delete_loop c.limitRangeDeletes = true
      · rw [if_pos hl] at h ⊢
        by_cases hr : run_delete_loop c.resourceQuotaDeletes = true
        · rw [if_pos hr] at h ⊢
          by_cases hcr : (run_creations c.createOk
              (creation_order c.securityPolicyEngine)).2 = true
          · rw [if_pos hcr] at h
            cases h
          · rw [if_neg hcr] at h ⊢
            left; rfl
        · rw [if_neg hr] at h
          cases h
      · rw [if_neg hl] at h
        cases h
    · rw [if_neg hc] at h ⊢
      left; rfl

/-- A cluster state whose namespace query fails, for the C5 amended-claim
witness. -/
def c5ClusterB : ClusterEnv :=
  { nsQuery := NsQuery.queryError, statusPhase := none, nsCreateOk := true,
    nsDeleteOk := true, limitRangeDeletes := [], resourceQuotaDeletes := [],
    createOk := fun _ => true, securityPolicyEngine := "" }

theorem temporary_errors_carry_phase_marker_witness :
    (training_portal_create c5ClusterB).patch = some Phase.retrying ∨
    (training_portal_create c5ClusterB).patch = some Phase.error ∨
    (training_portal_create c5ClusterB).patch = some Phase.pending ∨
    c5ClusterB.statusPhase = some Phase.retrying :=
  temporary_errors_carry_phase_marker c5ClusterB 30 rfl

end Educates
